import Mathlib

/-!
Verification of the SQL formatter core of go-zetasqlite
(`internal/formatter.go`).

The formatter walks an analyzer-produced resolved AST and emits SQL text
for a more limited target dialect.  We embed the node tree as an inductive
type (`Node`), the scoped translation context as an explicit environment
(`FmtEnv`, the values Go rebinds on a derived `ctx`) plus a threaded
mutable state (`FmtState`, the values Go mutates through shared pointers:
the name-path cursor, the column-expression map and the analytic
order-column accumulator), and each `FormatSQL` method as one arm of a
fuel-indexed interpreter `formatSQL`.  The fuel argument only bounds
recursion depth so that the interpreter is structurally recursive and
kernel-evaluable; every theorem quantifies over the fuel.

Go runtime panics (nil-pointer dereference, slice index out of range) are
modelled as the distinguished outcome `FmtErr.crash`, kept separate from
`error` returns (`FmtErr.goErr`).
-/

namespace ZetaFmt

/-- `strings.ToLower` restricted to the character-wise lowering the
formatter relies on (type and function names are ASCII). -/
def strToLower (s : String) : String :=
  String.mk (s.data.map Char.toLower)

/-- `strings.HasPrefix`, computed on the underlying character lists. -/
def strStartsWith (s pre : String) : Bool :=
  List.isPrefixOf pre.data s.data

/-- Go's `s[1:]` on an ASCII string (used to strip the `$` sigil). -/
def strDrop1 (s : String) : String :=
  String.mk (s.data.drop 1)

/-- `strings.Join xs sep`. -/
def joinSep (sep : String) : List String → String
  | [] => ""
  | [s] => s
  | s :: rest => s ++ sep ++ joinSep sep rest

/-- Character-level worker for `strings.Replace(body, "?", arg, 1)`:
replace the first `'?'` of the body, leave the rest untouched. -/
def replaceFirstQAux (arg : List Char) : List Char → List Char
  | [] => []
  | c :: rest => if c = '?' then arg ++ rest else c :: replaceFirstQAux arg rest

/-- `strings.Replace(body, "?", arg, 1)` as used for user-defined
function inlining. -/
def replaceFirstQ (body arg : String) : String :=
  String.mk (replaceFirstQAux arg.data body.data)

/-- `FormatName`: join catalog path segments with `_`. -/
def FormatName (namePath : List String) : String :=
  String.intercalate "_" namePath

/-- The scan loop of `MergeNamePath`: collect segments of `namePath`
until one equals `q0` (the head of the resolved query path). -/
def mergeLoop (q0 : String) : List String → List String
  | [] => []
  | p :: rest => if q0 = p then [] else p :: mergeLoop q0 rest

/-- `MergeNamePath(namePath, queryPath)` from `formatter.go`. -/
def MergeNamePath (namePath queryPath : List String) : List String :=
  match queryPath with
  | [] => namePath
  | q0 :: _ => mergeLoop q0 namePath ++ queryPath

/-- `FunctionSpec`: the externally supplied body template with `?`
placeholders, used to inline a user-defined function. -/
structure FunctionSpec where
  body : String

/-- Lookup in an association list (the embedding of a Go map read). -/
def assocLookup {α : Type} (m : List (String × α)) (k : String) : Option α :=
  match m with
  | [] => none
  | (k', v) :: rest => if k' = k then some v else assocLookup rest k

/-- Insert-or-replace in an association list (a Go map write). -/
def assocInsert {α : Type} (m : List (String × α)) (k : String) (v : α) :
    List (String × α) :=
  match m with
  | [] => [(k, v)]
  | (k', v') :: rest =>
    if k' = k then (k, v) :: rest else (k', v') :: assocInsert rest k v

/-- Remove the binding of `k` (a Go `delete(m, k)`). -/
def assocErase {α : Type} (m : List (String × α)) (k : String) :
    List (String × α) :=
  match m with
  | [] => []
  | (k', v') :: rest => if k' = k then rest else (k', v') :: assocErase rest k

/-- The set-operation operator tags of `ast.SetOperationType`; `other`
stands for any unrecognized numeric tag. -/
inductive SetOpType where
  | unionAll | unionDistinct | intersectAll | intersectDistinct
  | exceptAll | exceptDistinct
  | other (code : Nat)

/-- The window-frame boundary tags of `ast.BoundaryType`; `other` stands
for any unrecognized numeric tag. -/
inductive BoundaryType where
  | unboundedPreceding | offsetPreceding | currentRow
  | offsetFollowing | unboundedFollowing
  | other (code : Nat)

set_option maxHeartbeats 1600000 in
/-- The resolved-AST node variants exercised by the formatter behaviours
under verification.  Each variant carries its payload as an `Option`: Go
wrapper nodes hold a possibly-nil pointer to the analyzer node, and most
`FormatSQL` methods guard on `n.node == nil`.  `unsupported` stands for
the many variants whose `FormatSQL` body is just `return "", nil`. -/
inductive Node where
  | literal (payload : Option String)
  | parameter (payload : Option String)
  | columnRef (payload : Option (String × String))
  | argumentRef (payload : Option Unit)
  | functionCall (payload : Option (List Node × String × String))
  | analyticFunctionCall
      (payload : Option (List Node × String × String × Bool ×
        Option (Nat × (BoundaryType × Node) × (BoundaryType × Node))))
  | tableScan (payload : Option Unit)
  | filterScan (payload : Option (Node × Node))
  | aggregateScan (payload : Option (List Node × Node))
  | setOperationItem (payload : Option Node)
  | setOperationScan (payload : Option (SetOpType × List Node))
  | withRefScan (payload : Option String)
  | analyticScan
      (payload : Option (Node ×
        List (Option (List (String × String)) × Option (List (String × String)) ×
          List (Node × String))))
  | computedColumn (payload : Option (Node × String))
  | outputColumn (payload : Option String)
  | projectScan (payload : Option (List Node × Node × List String))
  | queryStmt (payload : Option Node)
  | dmlValue (payload : Option Node)
  | insertRow (payload : Option (List Node))
  | insertStmt (payload : Option (List String × List Node))
  | deleteStmt (payload : Option Node)
  | updateItem (payload : Option (Node × Node))
  | updateStmt (payload : Option (List Node × Node))
  | unsupported

/-- The context values Go passes DOWN the recursion by deriving a new
`ctx` (`withAnalyticTableName`, `withAnalyticPartitionColumnNames`) or
reads unchanged (`namePathFromContext`, `funcMapFromContext`).
Modelled from the spec: the three fixed builtin catalogs
(`normalFuncMap`, `aggregateFuncMap`, `windowFuncMap`) and the
user-defined `FunctionSpec` map live outside `formatter.go`; the spec
describes them as fixed name sets / an auxiliary input map, so they are
environment parameters here. -/
structure FmtEnv where
  namePath : List String
  funcMap : List (String × FunctionSpec)
  normalFuncs : List String
  aggregateFuncs : List String
  windowFuncs : List String
  analyticTableName : String
  analyticPartitionColumns : List String

/-- The context values Go mutates through shared pointers, visible to
parents and later siblings: the name-path cursor (`paths`, `idx`), the
column-expression map, and the analytic order-column accumulator. -/
structure FmtState where
  paths : List (List String)
  idx : Nat
  columnMap : List (String × String)
  orderColumnValues : List String

/-- Outcomes of one `FormatSQL` call: a Go `error` return (`goErr`), a
runtime panic (`crash`), or interpreter fuel exhaustion (`outOfFuel`,
never produced when the fuel exceeds the tree depth). -/
inductive FmtErr where
  | goErr (msg : String)
  | crash (msg : String)
  | outOfFuel

/-- The result-type family: lowercase the declared type name and collapse
every structured type (name starting with `struct`) to the literal
`struct` (lines 92-95 of `formatter.go`). -/
def familyOf (resultTypeName : String) : String :=
  let r := strToLower resultTypeName
  if strStartsWith r "struct" then "struct" else r

/-- `fmt.Sprintf("zetasqlite_%s_%s", bare, fam)`. -/
def mangledName (bare fam : String) : String :=
  "zetasqlite_" ++ bare ++ "_" ++ fam

/-- `fmt.Sprintf("zetasqlite_window_%s_%s", bare, fam)`. -/
def windowMangledName (bare fam : String) : String :=
  "zetasqlite_window_" ++ bare ++ "_" ++ fam

/-- The keyword pair chosen by the `switch n.node.OpType()` of
`SetOperationScanNode.FormatSQL`, including the silent `default` arm. -/
def setOpKeyword : SetOpType → String
  | .unionAll => "UNION ALL"
  | .unionDistinct => "UNION DISTINCT"
  | .intersectAll => "INTERSECT ALL"
  | .intersectDistinct => "INTERSECT DISTINCT"
  | .exceptAll => "EXCEPT ALL"
  | .exceptDistinct => "EXCEPT DISTINCT"
  | .other _ => "UNKONWN"

/-- One name-path cursor consumption: read `fullpath.paths[fullpath.idx]`
(a Go index panic when out of range), merge it with the declared path,
flatten, and advance the index by one. -/
def consumePath (env : FmtEnv) (st : FmtState) :
    Except FmtErr (String × FmtState) :=
  match st.paths.get? st.idx with
  | none => .error (.crash "index out of range")
  | some path =>
    .ok (FormatName (MergeNamePath env.namePath path),
      { st with idx := st.idx + 1 })

/-- Modelled from the spec: `getWindowPartitionOptionFuncSQL` lives
outside `formatter.go`; the spec only says each partition column becomes
one wrapped positional option. -/
def getWindowPartitionOptionFuncSQL (column : String) : String :=
  "zetasqlite_window_partition_string(" ++ column ++ ")"

/-- Modelled from the spec: `getWindowOrderByOptionFuncSQL` lives outside
`formatter.go`; one wrapped positional option per collected column. -/
def getWindowOrderByOptionFuncSQL (column : String) : String :=
  "zetasqlite_window_order_by_string(" ++ column ++ ")"

/-- Modelled from the spec: `getWindowFrameUnitOptionFuncSQL` lives
outside `formatter.go`; it wraps the numeric frame-unit tag. -/
def getWindowFrameUnitOptionFuncSQL (unit : Nat) : String :=
  "zetasqlite_window_frame_unit_string(" ++ toString unit ++ ")"

/-- Textual tag used by the modelled boundary options below. -/
def boundaryTypeName : BoundaryType → String
  | .unboundedPreceding => "unbounded_preceding"
  | .offsetPreceding => "offset_preceding"
  | .currentRow => "current_row"
  | .offsetFollowing => "offset_following"
  | .unboundedFollowing => "unbounded_following"
  | .other code => toString code

/-- Modelled from the spec: `getWindowBoundaryStartOptionFuncSQL` lives
outside `formatter.go`; it tags the boundary kind plus the optional
formatted offset literal. -/
def getWindowBoundaryStartOptionFuncSQL (t : BoundaryType) (lit : String) :
    String :=
  "zetasqlite_window_boundary_start_string(" ++ boundaryTypeName t ++ "," ++
    lit ++ ")"

/-- Modelled from the spec: `getWindowBoundaryEndOptionFuncSQL` lives
outside `formatter.go`. -/
def getWindowBoundaryEndOptionFuncSQL (t : BoundaryType) (lit : String) :
    String :=
  "zetasqlite_window_boundary_end_string(" ++ boundaryTypeName t ++ "," ++
    lit ++ ")"

/-- Modelled from the spec: `getWindowRowIDOptionFuncSQL` lives outside
`formatter.go`; the synthetic row-id option. -/
def getWindowRowIDOptionFuncSQL : String :=
  "zetasqlite_window_rowid_string()"

/-- The output-column loop of `ProjectScanNode.FormatSQL` (lines 666-676):
for each declared output column name, reuse-and-delete its
column-expression map entry when present, else emit the bare quoted name.
Returns the emitted SELECT entries and the map left behind. -/
def projectColumns : List String → List (String × String) →
    (List String × List (String × String))
  | [], m => ([], m)
  | name :: rest, m =>
    match assocLookup m name with
    | some ref =>
      let (cols, m') := projectColumns rest (assocErase m name)
      (ref :: cols, m')
    | none =>
      let (cols, m') := projectColumns rest m
      (("`" ++ name ++ "`") :: cols, m')

/-- Character-level worker for `substPlaceholdersSpec`. -/
def substSpecAux : List Char → List String → List Char
  | [], _ => []
  | c :: rest, args =>
    if c = '?' then
      match args with
      | [] => c :: substSpecAux rest []
      | a :: more => a.data ++ substSpecAux rest more
    else c :: substSpecAux rest args

/-- Follows the spec's words, for comparison with the code's substitution
loop: substitute each argument into the next remaining placeholder OF THE
BODY, left-to-right, one argument per placeholder (an argument's own text
is never treated as a placeholder). -/
def substPlaceholdersSpec (body : String) (args : List String) : String :=
  String.mk (substSpecAux body.data args)

/-- The argument-inlining loop shared by the three function-call variants
(`body = strings.Replace(body, "?", arg, 1)` per formatted argument). -/
def inlineBody (body : String) (args : List String) : String :=
  args.foldl replaceFirstQ body

/-- `FormatSQL` on a list of child nodes in order, threading the state
(the Go pattern `for _, a := range ... { newNode(a).FormatSQL(ctx) }`).
The recursive interpreter is passed in as `f`. -/
def formatNodeListF
    (f : Node → FmtEnv → FmtState → Except FmtErr (String × FmtState)) :
    List Node → FmtEnv → FmtState → Except FmtErr (List String × FmtState)
  | [], _, st => .ok ([], st)
  | n :: rest, env, st =>
    match f n env st with
    | .error e => .error e
    | .ok (s, st1) =>
      match formatNodeListF f rest env st1 with
      | .error e => .error e
      | .ok (ss, st2) => .ok (s :: ss, st2)

/-- `ComputedColumnNode.FormatSQL`: format the expression, build
`<expr> AS `name``, and record it in the column-expression map. -/
def formatComputedColumnF
    (f : Node → FmtEnv → FmtState → Except FmtErr (String × FmtState))
    (expr : Node) (name : String) (env : FmtEnv) (st : FmtState) :
    Except FmtErr (String × FmtState) :=
  match f expr env st with
  | .error e => .error e
  | .ok (exprSql, st1) =>
    let query := exprSql ++ " AS `" ++ name ++ "`"
    .ok (query, { st1 with columnMap := assocInsert st1.columnMap name query })

/-- The loop of `AnalyticFunctionGroupNode.FormatSQL`: format each
analytic computed column, then append the column's own quoted output name
to the shared order-column accumulator. -/
def formatAnalyticGroupFnsF
    (f : Node → FmtEnv → FmtState → Except FmtErr (String × FmtState)) :
    List (Node × String) → FmtEnv → FmtState →
    Except FmtErr (List String × FmtState)
  | [], _, st => .ok ([], st)
  | (expr, name) :: rest, env, st =>
    match formatComputedColumnF f expr name env st with
    | .error e => .error e
    | .ok (sql, st1) =>
      let st1 := { st1 with
        orderColumnValues := st1.orderColumnValues ++ ["`" ++ name ++ "`"] }
      match formatAnalyticGroupFnsF f rest env st1 with
      | .error e => .error e
      | .ok (ss, st2) => .ok (sql :: ss, st2)

/-- The per-column-reference `ctx` rebinding of the partition/order loops
in `AnalyticScanNode.FormatSQL`: the analytic table name ends up as the
last reference's owning table. -/
def analyticTableAfter (cur : String) : List (String × String) → String
  | [] => cur
  | (_, tbl) :: rest => analyticTableAfter tbl rest

/-- The function-group loop of `AnalyticScanNode.FormatSQL` (lines
557-584): record partition columns (and replace the partition-column
context), record order-by columns, then format the group, threading the
derived ctx across iterations. -/
def formatAnalyticGroupsF
    (f : Node → FmtEnv → FmtState → Except FmtErr (String × FmtState)) :
    List (Option (List (String × String)) × Option (List (String × String)) ×
      List (Node × String)) →
    FmtEnv → FmtState → Except FmtErr FmtState
  | [], _, st => .ok st
  | (partitionBy, orderBy, fns) :: rest, env, st =>
    let (env1, st1) :=
      match partitionBy with
      | none => (env, st)
      | some refs =>
        let cols := refs.map (fun (r : String × String) => "`" ++ r.1 ++ "`")
        ({ env with
            analyticTableName := analyticTableAfter env.analyticTableName refs
            analyticPartitionColumns := cols },
         { st with orderColumnValues := st.orderColumnValues ++ cols })
    let (env2, st2) :=
      match orderBy with
      | none => (env1, st1)
      | some refs =>
        let cols := refs.map (fun (r : String × String) => "`" ++ r.1 ++ "`")
        ({ env1 with
            analyticTableName := analyticTableAfter env1.analyticTableName refs },
         { st1 with orderColumnValues := st1.orderColumnValues ++ cols })
    match formatAnalyticGroupFnsF f fns env2 st2 with
    | .error e => .error e
    | .ok (_, st3) => formatAnalyticGroupsF f rest env2 st3

/-- The argument loop of `AnalyticFunctionCallNode.FormatSQL` (lines
207-220): only column-reference arguments are accepted (any other node
kind aborts with an error); each one rebinds the analytic table name to
its owning table, is formatted, and its text is appended both to the
shared order-column accumulator and to the argument list. -/
def formatAnalyticArgsF
    (f : Node → FmtEnv → FmtState → Except FmtErr (String × FmtState)) :
    List Node → FmtEnv → FmtState →
    Except FmtErr (List String × FmtEnv × FmtState)
  | [], env, st => .ok ([], env, st)
  | a :: rest, env, st =>
    match a with
    | .columnRef none => .error (.crash "nil pointer dereference")
    | .columnRef (some (name, tbl)) =>
      let env1 := { env with analyticTableName := tbl }
      match f (.columnRef (some (name, tbl))) env1 st with
      | .error e => .error e
      | .ok (s, st1) =>
        let st1 := { st1 with orderColumnValues := st1.orderColumnValues ++ [s] }
        match formatAnalyticArgsF f rest env1 st1 with
        | .error e => .error e
        | .ok (ss, env2, st2) => .ok (s :: ss, env2, st2)
    | _ => .error (.goErr "unexpected argument node type for analytic function")

/-- `getWindowBoundaryOptionFuncSQL` (lines 290-309): the three
offset-free boundary kinds carry no literal, the two offset kinds format
their offset expression, and any other tag is a fatal error. -/
def formatBoundaryF
    (f : Node → FmtEnv → FmtState → Except FmtErr (String × FmtState))
    (t : BoundaryType) (expr : Node) (isStart : Bool)
    (env : FmtEnv) (st : FmtState) : Except FmtErr (String × FmtState) :=
  match t with
  | .unboundedPreceding | .currentRow | .unboundedFollowing =>
    if isStart then .ok (getWindowBoundaryStartOptionFuncSQL t "", st)
    else .ok (getWindowBoundaryEndOptionFuncSQL t "", st)
  | .offsetPreceding | .offsetFollowing =>
    match f expr env st with
    | .error e => .error e
    | .ok (lit, st1) =>
      if isStart then .ok (getWindowBoundaryStartOptionFuncSQL t lit, st1)
      else .ok (getWindowBoundaryEndOptionFuncSQL t lit, st1)
  | .other _ => .error (.goErr "unexpected boundary type")

/-- The interpreter: one arm per embedded `FormatSQL` method of
`formatter.go`, faithful to each method's control flow, nil checks, error
returns, context rebindings and shared-state mutations.  The `Nat` fuel
bounds recursion depth only. -/
def formatSQL : Nat → Node → FmtEnv → FmtState →
    Except FmtErr (String × FmtState)
  | 0, _, _, _ => .error .outOfFuel
  | fuel + 1, node, env, st =>
    match node with
    | .literal none => .ok ("", st)
    | .literal (some encoded) => .ok (encoded, st)
    | .parameter none => .error (.crash "nil pointer dereference")
    | .parameter (some name) => .ok ("@" ++ name, st)
    | .columnRef none => .ok ("", st)
    | .columnRef (some (name, _)) => .ok ("`" ++ name ++ "`", st)
    | .argumentRef none => .ok ("", st)
    | .argumentRef (some _) => .ok ("?", st)
    | .functionCall none => .ok ("", st)
    | .functionCall (some (argList, rtn, fn)) =>
      match formatNodeListF (formatSQL fuel) argList env st with
      | .error e => .error e
      | .ok (args, st1) =>
        let fam := familyOf rtn
        if strStartsWith fn "$" then
          .ok (mangledName (strDrop1 fn) fam ++ "(" ++ joinSep "," args ++ ")",
            st1)
        else if env.normalFuncs.contains fn then
          .ok (mangledName fn fam ++ "(" ++ joinSep "," args ++ ")", st1)
        else
          match consumePath env st1 with
          | .error e => .error e
          | .ok (merged, st2) =>
            match assocLookup env.funcMap merged with
            | some spec => .ok ("( " ++ inlineBody spec.body args ++ " )", st2)
            | none => .ok (merged ++ "(" ++ joinSep "," args ++ ")", st2)
    | .analyticFunctionCall none => .ok ("", st)
    | .analyticFunctionCall (some (argList, rtn, fn, dist, frame)) =>
      let snapshot := st.orderColumnValues
      match formatAnalyticArgsF (formatSQL fuel) argList env st with
      | .error e => .error e
      | .ok (args, env1, st1) =>
        if env1.analyticTableName = "" then
          .error (.goErr "failed to find table name from analytic query")
        else
          let fam := familyOf rtn
          let proceed : String → FmtState → Except FmtErr (String × FmtState) :=
            fun funcName stA =>
              let optBase := args ++
                (if dist then ["zetasqlite_distinct_string()"] else []) ++
                env1.analyticPartitionColumns.map getWindowPartitionOptionFuncSQL ++
                snapshot.map getWindowOrderByOptionFuncSQL
              let frameRes : Except FmtErr (List String × FmtState) :=
                match frame with
                | none => .ok ([], stA)
                | some (unit, (sbt, sexpr), (ebt, eexpr)) =>
                  match formatBoundaryF (formatSQL fuel) sbt sexpr true env1 stA with
                  | .error e => .error e
                  | .ok (ssql, stB1) =>
                    match formatBoundaryF (formatSQL fuel) ebt eexpr false env1 stB1 with
                    | .error e => .error e
                    | .ok (esql, stB2) =>
                      .ok ([getWindowFrameUnitOptionFuncSQL unit, ssql, esql], stB2)
              match frameRes with
              | .error e => .error e
              | .ok (frameOpts, stB) =>
                .ok ("( SELECT " ++ funcName ++ "(" ++
                  joinSep "," (optBase ++ frameOpts ++ [getWindowRowIDOptionFuncSQL]) ++
                  ") FROM " ++ env1.analyticTableName ++ " )", stB)
          if strStartsWith fn "$" then
            proceed (windowMangledName (strDrop1 fn) fam) st1
          else if env.windowFuncs.contains fn then
            proceed (windowMangledName fn fam) st1
          else
            match consumePath env st1 with
            | .error e => .error e
            | .ok (merged, st2) =>
              match assocLookup env.funcMap merged with
              | some spec => .ok ("( " ++ inlineBody spec.body args ++ " )", st2)
              | none => proceed merged st2
    | .tableScan none => .ok ("", st)
    | .tableScan (some _) =>
      match consumePath env st with
      | .error e => .error e
      | .ok (tableName, st1) => .ok ("FROM `" ++ tableName ++ "`", st1)
    | .filterScan none => .ok ("", st)
    | .filterScan (some (input, filter)) =>
      match formatSQL fuel input env st with
      | .error e => .error e
      | .ok (inputSql, st1) =>
        match formatSQL fuel filter env st1 with
        | .error e => .error e
        | .ok (filterSql, st2) =>
          .ok (inputSql ++ " WHERE " ++ filterSql, st2)
    | .aggregateScan none => .ok ("", st)
    | .aggregateScan (some (aggs, input)) =>
      match formatNodeListF (formatSQL fuel) aggs env st with
      | .error e => .error e
      | .ok (_, st1) =>
        match formatSQL fuel input env st1 with
        | .error e => .error e
        | .ok (inputSql, st2) =>
          if strStartsWith inputSql "SELECT" then
            .ok ("FROM ( " ++ inputSql ++ " )", st2)
          else
            .ok (inputSql, st2)
    | .setOperationItem none => .ok ("", st)
    | .setOperationItem (some scan) => formatSQL fuel scan env st
    | .setOperationScan none => .ok ("", st)
    | .setOperationScan (some (op, items)) =>
      match formatNodeListF (formatSQL fuel) items env st with
      | .error e => .error e
      | .ok (queries, st1) =>
        .ok (joinSep (" " ++ setOpKeyword op ++ " ") queries, st1)
    | .withRefScan none => .ok ("", st)
    | .withRefScan (some queryName) => .ok ("FROM " ++ queryName, st)
    | .analyticScan none => .ok ("", st)
    | .analyticScan (some (input, groups)) =>
      match formatSQL fuel input env st with
      | .error e => .error e
      | .ok (inputSql, st1) =>
        match formatAnalyticGroupsF (formatSQL fuel) groups env st1 with
        | .error e => .error e
        | .ok (st2) =>
          .ok ("FROM ( SELECT *, ROW_NUMBER() OVER() AS `rowid` " ++ inputSql ++
            " ) " ++ ("ORDER BY " ++ joinSep "," st2.orderColumnValues),
            { st2 with orderColumnValues := [] })
    | .computedColumn none => .ok ("", st)
    | .computedColumn (some (expr, name)) =>
      formatComputedColumnF (formatSQL fuel) expr name env st
    | .outputColumn none => .ok ("", st)
    | .outputColumn (some name) =>
      match assocLookup st.columnMap name with
      | some ref => .ok (ref, st)
      | none => .ok ("`" ++ name ++ "`", st)
    | .projectScan none => .ok ("", st)
    | .projectScan (some (exprList, input, colNames)) =>
      match formatNodeListF (formatSQL fuel) exprList env st with
      | .error e => .error e
      | .ok (_, st1) =>
        match formatSQL fuel input env st1 with
        | .error e => .error e
        | .ok (inputSql, st2) =>
          let (cols, m2) := projectColumns colNames st2.columnMap
          .ok ("SELECT " ++ joinSep "," cols ++ " " ++ inputSql,
            { st2 with columnMap := m2 })
    | .queryStmt none => .ok ("", st)
    | .queryStmt (some q) => formatSQL fuel q env st
    | .dmlValue none => .error (.crash "nil pointer dereference")
    | .dmlValue (some v) => formatSQL fuel v env st
    | .insertRow none => .error (.crash "nil pointer dereference")
    | .insertRow (some values) =>
      match formatNodeListF (formatSQL fuel) values env st with
      | .error e => .error e
      | .ok (vs, st1) => .ok ("(" ++ joinSep "," vs ++ ")", st1)
    | .insertStmt payload =>
      match consumePath env st with
      | .error e => .error e
      | .ok (tbl, st1) =>
        match payload with
        | none => .error (.crash "nil pointer dereference")
        | some (cols, rows) =>
          match formatNodeListF (formatSQL fuel) rows env st1 with
          | .error e => .error e
          | .ok (rs, st2) =>
            .ok ("INSERT INTO `" ++ tbl ++ "` (" ++
              joinSep "," (cols.map (fun c => "`" ++ c ++ "`")) ++ ") VALUES " ++
              joinSep "," rs, st2)
    | .deleteStmt payload =>
      match consumePath env st with
      | .error e => .error e
      | .ok (tbl, st1) =>
        match payload with
        | none => .error (.crash "nil pointer dereference")
        | some w =>
          match formatSQL fuel w env st1 with
          | .error e => .error e
          | .ok (ws, st2) =>
            .ok ("DELETE FROM `" ++ tbl ++ "` WHERE " ++ ws, st2)
    | .updateItem none => .ok ("", st)
    | .updateItem (some (target, setValue)) =>
      match formatSQL fuel target env st with
      | .error e => .error e
      | .ok (ts, st1) =>
        match formatSQL fuel setValue env st1 with
        | .error e => .error e
        | .ok (vs, st2) => .ok (ts ++ "=" ++ vs, st2)
    | .updateStmt payload =>
      match consumePath env st with
      | .error e => .error e
      | .ok (tbl, st1) =>
        match payload with
        | none => .error (.crash "nil pointer dereference")
        | some (items, w) =>
          match formatNodeListF (formatSQL fuel) items env st1 with
          | .error e => .error e
          | .ok (itemSqls, st2) =>
            match formatSQL fuel w env st2 with
            | .error e => .error e
            | .ok (ws, st3) =>
              .ok ("UPDATE `" ++ tbl ++ "` SET " ++ joinSep "," itemSqls ++
                " WHERE " ++ ws, st3)
    | .unsupported => .ok ("", st)

/-- Shape test used to state the analytic argument restriction: the Go
`switch t := a.(type)` accepts exactly the `*ast.ColumnRefNode` case. -/
def isColumnRef : Node → Bool
  | .columnRef _ => true
  | _ => false

/-- Character-level view of the inlining fold, for reasoning about
`inlineBody`. -/
def charFold (bs : List Char) (args : List String) : List Char :=
  args.foldl (fun b a => replaceFirstQAux a.data b) bs

/-- An empty translation context: no declared path, no function specs,
empty catalogs, no name-path cursor entries. -/
def env0 : FmtEnv := ⟨[], [], [], [], [], "", []⟩

/-- The empty threaded state. -/
def st0 : FmtState := ⟨[], 0, [], []⟩

/-- A state whose name-path cursor holds one entry `["t1"]`. -/
def stP : FmtState := ⟨[["t1"]], 0, [], []⟩

/-- A context carrying one user-defined function spec `f` with body
`"? + ?"`. -/
def envF : FmtEnv := ⟨[], [("f", ⟨"? + ?"⟩)], [], [], [], "", []⟩

/-- A state whose cursor resolves the next reference to `["f"]`. -/
def stF : FmtState := ⟨[["f"]], 0, [], []⟩

/-- A zero-argument private-builtin analytic call (`$row_number`,
result type `INT64`, no DISTINCT, no frame). -/
def c7call : Node := .analyticFunctionCall (some ([], "INT64", "$row_number", false, none))

/-- One analytic function group: `PARTITION BY p` (owned by table `t1`),
no ORDER BY, one function `c7call` producing output column `rn`. -/
def c7groups : List (Option (List (String × String)) × Option (List (String × String)) ×
    List (Node × String)) :=
  [(some [("p", "t1")], none, [(c7call, "rn")])]

/-- An analytic scan over `FROM t` with the single group `c7groups`. -/
def c7scan : Node := .analyticScan (some (.withRefScan (some "t"), c7groups))

/-- The correlated-subquery emulation call emitted for `c7call`. -/
def c7callSql : String :=
  "( SELECT zetasqlite_window_row_number_int64(zetasqlite_window_partition_string(`p`)," ++
  "zetasqlite_window_order_by_string(`p`),zetasqlite_window_rowid_string()) FROM t1 )"

/-- The column-expression map after formatting `c7call` as the computed
column `rn`. -/
def c7map : List (String × String) := [("rn", c7callSql ++ " AS `rn`")]

/-- The derived context in force while the group of `c7scan` formats its
function: analytic table `t1`, partition columns `[`p`]`. -/
def envP : FmtEnv := ⟨[], [], [], [], [], "t1", ["`p`"]⟩

/-- The scan loop of `MergeNamePath` collects exactly the longest prefix
of segments different from the resolved head. -/
theorem mergeLoop_eq_takeWhile (q0 : String) (l : List String) :
    mergeLoop q0 l = l.takeWhile (fun p => p != q0) := by
  induction l with
  | nil => rfl
  | cons p rest ih =>
    by_cases h : q0 = p
    · subst h
      simp [mergeLoop, List.takeWhile_cons]
    · have hb : (p != q0) = true := by
        simp only [bne_iff_ne, ne_eq]
        exact fun hh => h hh.symm
      rw [mergeLoop, if_neg h, List.takeWhile_cons, hb, ih]
      simp

/-- With no arguments left, the spec-side substitution is the identity. -/
theorem substSpecAux_nil (bs : List Char) : substSpecAux bs [] = bs := by
  induction bs with
  | nil => rfl
  | cons c rest ih => by_cases h : c = '?' <;> simp [substSpecAux, h, ih]

/-- Folding replacements over an empty body stays empty. -/
theorem charFold_nil (args : List String) : charFold [] args = [] := by
  induction args with
  | nil => rfl
  | cons a as ih => simpa [charFold, replaceFirstQAux] using ih

/-- A non-placeholder head character is untouched by every replacement
in the fold. -/
theorem charFold_cons_ne (c : Char) (hc : c ≠ '?') (bs : List Char)
    (args : List String) : charFold (c :: bs) args = c :: charFold bs args := by
  induction args generalizing bs with
  | nil => rfl
  | cons a as ih =>
    have hstep : replaceFirstQAux a.data (c :: bs) = c :: replaceFirstQAux a.data bs := by
      simp [replaceFirstQAux, hc]
    show charFold (replaceFirstQAux a.data (c :: bs)) as = _
    rw [hstep, ih]
    rfl

/-- A placeholder-free prefix passes through the whole fold. -/
theorem charFold_append_clean (a : List Char) (ha : '?' ∉ a) (bs : List Char)
    (args : List String) : charFold (a ++ bs) args = a ++ charFold bs args := by
  induction a with
  | nil => rfl
  | cons c a' ih =>
    have hc : c ≠ '?' := fun hh => ha (hh ▸ List.mem_cons_self c a')
    have ha' : '?' ∉ a' := fun hh => ha (List.mem_cons_of_mem c hh)
    rw [List.cons_append, charFold_cons_ne c hc, ih ha', List.cons_append]

/-- When no argument contains a placeholder character, the code's
replace-first fold coincides with positional placeholder substitution. -/
theorem charFold_eq_substSpec (bs : List Char) (args : List String)
    (h : ∀ a ∈ args, '?' ∉ a.data) : charFold bs args = substSpecAux bs args := by
  induction bs generalizing args with
  | nil => rw [charFold_nil]; rfl
  | cons c rest ih =>
    by_cases hc : c = '?'
    · subst hc
      cases args with
      | nil => rw [substSpecAux_nil]; rfl
      | cons a as =>
        have ha : '?' ∉ a.data := h a (List.mem_cons_self a as)
        have has : ∀ b ∈ as, '?' ∉ b.data := fun b hb => h b (List.mem_cons_of_mem a hb)
        show charFold (replaceFirstQAux a.data ('?' :: rest)) as = _
        have hstep : replaceFirstQAux a.data ('?' :: rest) = a.data ++ rest := by
          simp [replaceFirstQAux]
        rw [hstep, charFold_append_clean a.data ha rest as, ih as has]
        simp [substSpecAux]
    · rw [charFold_cons_ne c hc rest args, ih args h]
      simp [substSpecAux, hc]

/-- `inlineBody` is the string view of the character-level fold. -/
theorem inlineBody_eq_charFold (body : String) (args : List String) :
    inlineBody body args = String.mk (charFold body.data args) := by
  induction args generalizing body with
  | nil =>
    show body = String.mk body.data
    cases body
    rfl
  | cons a as ih =>
    show inlineBody (replaceFirstQ body a) as = _
    rw [ih]
    rfl

/-- Placeholder-free arguments make the code's inlining equal to the
spec's positional substitution. -/
theorem inlineBody_eq_substSpec (body : String) (args : List String)
    (h : ∀ a ∈ args, '?' ∉ a.data) :
    inlineBody body args = substPlaceholdersSpec body args := by
  rw [inlineBody_eq_charFold, substPlaceholdersSpec,
    charFold_eq_substSpec body.data args h]

/-- A key is absent from an association list exactly when it is not
among the stored keys. -/
theorem assocLookup_none_iff {α : Type} (m : List (String × α)) (k : String) :
    assocLookup m k = none ↔ k ∉ m.map Prod.fst := by
  induction m with
  | nil => simp [assocLookup]
  | cons p rest ih =>
    obtain ⟨k', v⟩ := p
    by_cases h : k' = k
    · subst h
      simp [assocLookup]
    · simp only [assocLookup, if_neg h, List.map_cons, List.mem_cons, ih]
      constructor
      · intro hn
        exact fun hh => hh.elim (fun he => h he.symm) hn
      · intro hn
        exact fun hh => hn (Or.inr hh)

/-- Erasing never adds entries: the result is a sublist. -/
theorem assocErase_sublist {α : Type} (m : List (String × α)) (k : String) :
    List.Sublist (assocErase m k) m := by
  induction m with
  | nil => simp [assocErase]
  | cons p rest ih =>
    obtain ⟨k', v⟩ := p
    by_cases h : k' = k
    · simp only [assocErase, if_pos h]
      exact List.sublist_cons_self _ _
    · simp only [assocErase, if_neg h]
      exact List.Sublist.cons₂ _ ih

/-- Erasing one key leaves lookups of other keys unchanged. -/
theorem assocLookup_erase_ne {α : Type} (m : List (String × α)) (k name : String)
    (h : k ≠ name) : assocLookup (assocErase m k) name = assocLookup m name := by
  induction m with
  | nil => rfl
  | cons p rest ih =>
    obtain ⟨k', v⟩ := p
    by_cases hk : k' = k
    · subst hk
      have hn : k' ≠ name := h
      simp [assocErase, assocLookup, hn]
    · simp only [assocErase, if_neg hk, assocLookup]
      by_cases hn : k' = name
      · rw [if_pos hn, if_pos hn]
      · rw [if_neg hn, if_neg hn, ih]

/-- With unique keys, erasing a key removes it from lookup entirely. -/
theorem assocLookup_erase_self {α : Type} (m : List (String × α)) (k : String)
    (hnd : (m.map Prod.fst).Nodup) : assocLookup (assocErase m k) k = none := by
  induction m with
  | nil => rfl
  | cons p rest ih =>
    obtain ⟨k', v⟩ := p
    simp only [List.map_cons, List.nodup_cons] at hnd
    by_cases hk : k' = k
    · subst hk
      simp only [assocErase, if_pos rfl]
      rw [assocLookup_none_iff]
      exact hnd.1
    · simp only [assocErase, if_neg hk, assocLookup, if_neg hk]
      exact ih hnd.2

/-- Erasing preserves key uniqueness. -/
theorem nodup_keys_erase {α : Type} (m : List (String × α)) (k : String)
    (hnd : (m.map Prod.fst).Nodup) : ((assocErase m k).map Prod.fst).Nodup :=
  hnd.sublist ((assocErase_sublist m k).map Prod.fst)

/-- If every stored key is a declared output column (and keys are
unique), the output-column loop drains the map completely. -/
theorem projectColumns_map_empty (cols : List String) (m : List (String × String))
    (hnd : (m.map Prod.fst).Nodup) (hsub : ∀ k ∈ m.map Prod.fst, k ∈ cols) :
    (projectColumns cols m).2 = [] := by
  induction cols generalizing m with
  | nil =>
    cases m with
    | nil => rfl
    | cons p rest => exact absurd (hsub p.1 (by simp)) (List.not_mem_nil _)
  | cons c rest ih =>
    cases hl : assocLookup m c with
    | some ref =>
      have hnd' := nodup_keys_erase m c hnd
      have hsub' : ∀ k ∈ (assocErase m c).map Prod.fst, k ∈ rest := by
        intro k hk
        have hkm : k ∈ m.map Prod.fst :=
          ((assocErase_sublist m c).map Prod.fst).mem hk
        have hkc : k ≠ c := by
          intro hh
          subst hh
          have hnone := assocLookup_erase_self m k hnd
          rw [assocLookup_none_iff] at hnone
          exact hnone hk
        rcases List.mem_cons.mp (hsub k hkm) with h | h
        · exact absurd h hkc
        · exact h
      have hres := ih (assocErase m c) hnd' hsub'
      rcases hx : projectColumns rest (assocErase m c) with ⟨cl, m2⟩
      rw [hx] at hres
      simp [projectColumns, hl, hx, hres]
    | none =>
      have hsub' : ∀ k ∈ m.map Prod.fst, k ∈ rest := by
        intro k hk
        have hkc : k ≠ c := by
          intro hh
          subst hh
          rw [assocLookup_none_iff] at hl
          exact hl hk
        rcases List.mem_cons.mp (hsub k hk) with h | h
        · exact absurd h hkc
        · exact h
      have hres := ih m hnd hsub'
      rcases hx : projectColumns rest m with ⟨cl, m2⟩
      rw [hx] at hres
      simp [projectColumns, hl, hx, hres]

/-- Positional description of the emitted SELECT entries: an output
column name is rendered from the map exactly at its first occurrence
(consuming the entry); every later occurrence, and every name without an
entry, is rendered as the bare quoted name. -/
theorem projectColumns_get (cols : List String) (m : List (String × String))
    (hnd : (m.map Prod.fst).Nodup) (i : Nat) (c : String)
    (hc : cols.get? i = some c) :
    (projectColumns cols m).1.get? i =
      some (if c ∈ cols.take i then "`" ++ c ++ "`"
            else match assocLookup m c with
                 | some ref => ref
                 | none => "`" ++ c ++ "`") := by
  induction cols generalizing m i with
  | nil => simp [List.get?] at hc
  | cons c0 rest ih =>
    cases i with
    | zero =>
      have hc0 : c0 = c := by
        simpa [List.get?] using hc
      subst hc0
      cases hl : assocLookup m c0 with
      | some ref =>
        rcases hx : projectColumns rest (assocErase m c0) with ⟨cl, m2⟩
        simp [projectColumns, hl, hx, List.take]
      | none =>
        rcases hx : projectColumns rest m with ⟨cl, m2⟩
        simp [projectColumns, hl, hx, List.take]
    | succ j =>
      have hc' : rest.get? j = some c := hc
      cases hl : assocLookup m c0 with
      | some ref =>
        rcases hx : projectColumns rest (assocErase m c0) with ⟨cl, m2⟩
        have hnd' := nodup_keys_erase m c0 hnd
        have hih := ih (assocErase m c0) hnd' j hc'
        rw [hx] at hih
        by_cases hcc : c = c0
        · subst hcc
          have hnone := assocLookup_erase_self m c hnd
          rw [hnone] at hih
          simp only [projectColumns, hl, hx, List.get?_cons_succ, List.take_succ_cons,
            List.mem_cons, true_or, if_true, eq_self_iff_true]
          rw [hih]
          by_cases hmem : c ∈ rest.take j <;> simp [hmem]
        · have hlk := assocLookup_erase_ne m c0 c (fun hh => hcc hh.symm)
          rw [hlk] at hih
          have hmem : (c ∈ (c0 :: rest).take (j + 1)) ↔ (c ∈ rest.take j) := by
            simp [List.take_succ_cons, List.mem_cons, hcc]
          simp only [projectColumns, hl, hx, List.get?_cons_succ]
          rw [hih]
          by_cases hm : c ∈ rest.take j
          · rw [if_pos hm, if_pos (hmem.mpr hm)]
          · rw [if_neg hm, if_neg (fun hh => hm (hmem.mp hh))]
      | none =>
        rcases hx : projectColumns rest m with ⟨cl, m2⟩
        have hih := ih m hnd j hc'
        rw [hx] at hih
        by_cases hcc : c = c0
        · subst hcc
          rw [hl] at hih
          simp only [projectColumns, hl, hx, List.get?_cons_succ, List.take_succ_cons,
            List.mem_cons, true_or, if_true, eq_self_iff_true]
          rw [hih]
          by_cases hmem : c ∈ rest.take j <;> simp [hmem]
        · have hmem : (c ∈ (c0 :: rest).take (j + 1)) ↔ (c ∈ rest.take j) := by
            simp [List.take_succ_cons, List.mem_cons, hcc]
          simp only [projectColumns, hl, hx, List.get?_cons_succ]
          rw [hih]
          by_cases hm : c ∈ rest.take j
          · rw [if_pos hm, if_pos (hmem.mpr hm)]
          · rw [if_neg hm, if_neg (fun hh => hm (hmem.mp hh))]

/-- The head of the analytic argument loop on a non-column-reference
argument: the Go `switch` default arm aborts with an error. -/
theorem formatAnalyticArgsF_cons_err
    (f : Node → FmtEnv → FmtState → Except FmtErr (String × FmtState))
    (a : Node) (rest : List Node) (env : FmtEnv) (st : FmtState)
    (ha : isColumnRef a = false) :
    formatAnalyticArgsF f (a :: rest) env st =
      .error (.goErr "unexpected argument node type for analytic function") := by
  cases a <;> simp_all [isColumnRef, formatAnalyticArgsF]

/-- Any non-column-reference argument anywhere in the list makes the
analytic argument loop fail. -/
theorem formatAnalyticArgsF_error
    (f : Node → FmtEnv → FmtState → Except FmtErr (String × FmtState))
    (args : List Node) (env : FmtEnv) (st : FmtState)
    (h : ∃ a ∈ args, isColumnRef a = false) :
    ∃ e, formatAnalyticArgsF f args env st = .error e := by
  induction args generalizing env st with
  | nil => simp at h
  | cons a rest ih =>
    by_cases hca : isColumnRef a = true
    · rcases h with ⟨b, hb, hbf⟩
      rcases List.mem_cons.mp hb with rfl | hbr
      · rw [hca] at hbf
        exact absurd hbf (by simp)
      · cases a with
        | columnRef p =>
          cases p with
          | none => exact ⟨.crash "nil pointer dereference", rfl⟩
          | some pr =>
            obtain ⟨nm, tb⟩ := pr
            cases hres : f (.columnRef (some (nm, tb)))
                { env with analyticTableName := tb } st with
            | error e => exact ⟨e, by simp [formatAnalyticArgsF, hres]⟩
            | ok pr2 =>
              obtain ⟨s1, stY⟩ := pr2
              obtain ⟨e, he⟩ := ih { env with analyticTableName := tb }
                { stY with orderColumnValues := stY.orderColumnValues ++ [s1] }
                ⟨b, hbr, hbf⟩
              exact ⟨e, by simp [formatAnalyticArgsF, hres, he]⟩
        | literal p => simp [isColumnRef] at hca
        | parameter p => simp [isColumnRef] at hca
        | argumentRef p => simp [isColumnRef] at hca
        | functionCall p => simp [isColumnRef] at hca
        | analyticFunctionCall p => simp [isColumnRef] at hca
        | tableScan p => simp [isColumnRef] at hca
        | filterScan p => simp [isColumnRef] at hca
        | aggregateScan p => simp [isColumnRef] at hca
        | setOperationItem p => simp [isColumnRef] at hca
        | setOperationScan p => simp [isColumnRef] at hca
        | withRefScan p => simp [isColumnRef] at hca
        | analyticScan p => simp [isColumnRef] at hca
        | computedColumn p => simp [isColumnRef] at hca
        | outputColumn p => simp [isColumnRef] at hca
        | projectScan p => simp [isColumnRef] at hca
        | queryStmt p => simp [isColumnRef] at hca
        | dmlValue p => simp [isColumnRef] at hca
        | insertRow p => simp [isColumnRef] at hca
        | insertStmt p => simp [isColumnRef] at hca
        | deleteStmt p => simp [isColumnRef] at hca
        | updateItem p => simp [isColumnRef] at hca
        | updateStmt p => simp [isColumnRef] at hca
        | unsupported => simp [isColumnRef] at hca
    · have ha : isColumnRef a = false := by
        cases hv : isColumnRef a
        · rfl
        · exact absurd hv hca
      exact ⟨_, formatAnalyticArgsF_cons_err f a rest env st ha⟩

/-- C1: the claim states that a set-operation scan with an operator code
outside the six recognized types makes `FormatSQL` return an explicit
error.  The code instead falls into a silent `default:` arm that sets the
joining keyword to the misspelled placeholder `UNKONWN` and returns
success: on a two-branch scan with unrecognized operator code 42 the
translation succeeds with the branches joined by ` UNKONWN `, and the
`default` arm produces that placeholder for every unrecognized code. -/
theorem C1_unrecognized_setop_silently_succeeds :
    formatSQL 10 (.setOperationScan (some (.other 42,
      [.setOperationItem (some (.withRefScan (some "t1"))),
       .setOperationItem (some (.withRefScan (some "t2")))]))) env0 st0 =
      .ok ("FROM t1 UNKONWN FROM t2", st0) ∧
    (∀ code : Nat, setOpKeyword (.other code) = "UNKONWN") :=
  ⟨rfl, fun _ => rfl⟩

/-- C4: the claim states that every node variant with an absent payload
returns empty text and no error.  The five DML variants (`DMLValueNode`,
`InsertRowNode`, `InsertStmtNode`, `DeleteStmtNode`, `UpdateStmtNode`)
check only the wrapper (`if n == nil`), not the payload (`n.node`), so an
absent payload is dereferenced and the translation panics; by contrast a
literal with absent payload does return `("", nil)` as claimed. -/
theorem C4_dml_nil_payload_crashes :
    formatSQL 10 (.dmlValue none) env0 st0 =
      .error (.crash "nil pointer dereference") ∧
    formatSQL 10 (.insertRow none) env0 st0 =
      .error (.crash "nil pointer dereference") ∧
    formatSQL 10 (.insertStmt none) env0 stP =
      .error (.crash "nil pointer dereference") ∧
    formatSQL 10 (.deleteStmt none) env0 stP =
      .error (.crash "nil pointer dereference") ∧
    formatSQL 10 (.updateStmt none) env0 stP =
      .error (.crash "nil pointer dereference") ∧
    formatSQL 10 (.literal none) env0 st0 = .ok ("", st0) :=
  ⟨rfl, rfl, rfl, rfl, rfl, rfl⟩

/-- C8: `MergeNamePath declared resolved` returns `declared` unchanged
when `resolved` is empty, and otherwise returns `P ++ resolved` where `P`
is the prefix of `declared` collected from the front until a segment
equals `resolved[0]`; in particular
`merge(["a","b","c"], ["b","c","d"]) = ["a","b","c","d"]`. -/
theorem C8_mergeNamePath_spec :
    (∀ (declared resolved : List String),
      MergeNamePath declared resolved =
        match resolved with
        | [] => declared
        | q0 :: _ => declared.takeWhile (fun p => p != q0) ++ resolved) ∧
    MergeNamePath ["a", "b", "c"] ["b", "c", "d"] = ["a", "b", "c", "d"] := by
  constructor
  · intro declared resolved
    cases resolved with
    | nil => rfl
    | cons q0 qrest => simp [MergeNamePath, mergeLoop_eq_takeWhile]
  · rfl

/-- C9: an aggregate scan first formats every aggregate expression (its
only effect is on the threaded state), then wraps the input fragment in
`FROM ( <input> )` exactly when the input fragment starts with `SELECT`,
and otherwise passes the input fragment through unchanged. -/
theorem C9_aggregateScan_wrap (fuel : Nat) (aggs : List Node) (input : Node)
    (env : FmtEnv) (st : FmtState) (qs : List String) (st1 : FmtState)
    (s : String) (st2 : FmtState)
    (haggs : formatNodeListF (formatSQL fuel) aggs env st = .ok (qs, st1))
    (hinput : formatSQL fuel input env st1 = .ok (s, st2)) :
    formatSQL (fuel + 1) (.aggregateScan (some (aggs, input))) env st =
      .ok (if strStartsWith s "SELECT" then "FROM ( " ++ s ++ " )" else s, st2) := by
  simp only [formatSQL, haggs, hinput]
  split <;> rfl

/-- C9 witness: a bare `FROM t` input passes through unchanged, while a
`SELECT ...` input (a project scan) gets wrapped in `FROM ( ... )`. -/
theorem C9_aggregateScan_wrap_witness :
    formatSQL 10 (.aggregateScan (some ([], .withRefScan (some "t")))) env0 st0 =
      .ok (if strStartsWith "FROM t" "SELECT" then "FROM ( " ++ "FROM t" ++ " )"
           else "FROM t", st0) ∧
    formatSQL 10 (.aggregateScan (some ([],
        .projectScan (some ([], .withRefScan (some "t"), []))))) env0 st0 =
      .ok (if strStartsWith "SELECT  FROM t" "SELECT"
           then "FROM ( " ++ "SELECT  FROM t" ++ " )" else "SELECT  FROM t", st0) :=
  ⟨C9_aggregateScan_wrap 9 [] (.withRefScan (some "t")) env0 st0 [] st0
      "FROM t" st0 rfl rfl,
   C9_aggregateScan_wrap 9 [] (.projectScan (some ([], .withRefScan (some "t"), [])))
      env0 st0 [] st0 "SELECT  FROM t" st0 rfl rfl⟩

/-- C10: an analytic function call whose argument list contains any node
that is not a column reference aborts with an error (the Go `switch`
over the argument's dynamic type has an error-returning default arm). -/
theorem C10_analytic_args_must_be_column_refs (fuel : Nat) (argList : List Node)
    (rtn fn : String) (dist : Bool)
    (frame : Option (Nat × (BoundaryType × Node) × (BoundaryType × Node)))
    (env : FmtEnv) (st : FmtState)
    (h : ∃ a ∈ argList, isColumnRef a = false) :
    ∃ e, formatSQL (fuel + 1)
      (.analyticFunctionCall (some (argList, rtn, fn, dist, frame))) env st =
        .error e := by
  obtain ⟨e, he⟩ := formatAnalyticArgsF_error (formatSQL fuel) argList env st h
  exact ⟨e, by simp [formatSQL, he]⟩

/-- C10 witness: a literal argument to an analytic call makes the
translation fail. -/
theorem C10_analytic_args_must_be_column_refs_witness :
    (∃ a ∈ [Node.literal (some "1")], isColumnRef a = false) ∧
    ∃ e, formatSQL 10
      (.analyticFunctionCall (some ([.literal (some "1")], "INT64", "$rank",
        false, none))) env0 st0 = .error e :=
  ⟨⟨.literal (some "1"), List.mem_singleton.mpr rfl, rfl⟩,
   C10_analytic_args_must_be_column_refs 9 [.literal (some "1")] "INT64" "$rank"
     false none env0 st0 ⟨.literal (some "1"), List.mem_singleton.mpr rfl, rfl⟩⟩

/-- C3: a table scan consumes exactly one cursor entry — its translation
maps the state to the identical state with the index advanced by one and
touches nothing else; each DML statement (insert, delete, update)
consumes exactly one cursor entry for its own target before formatting
its children: the children start at index `idx + 1` and the statement
adds no further advancement of its own, so the final state is exactly
whatever the children produce. -/
theorem C3_single_cursor_advance (fuel : Nat) (env : FmtEnv) (st : FmtState)
    (path : List String) (cols : List String) (rows items : List Node)
    (w wu : Node) (rs us : List String) (ws wus : String)
    (stR stW stU stWU : FmtState)
    (hpath : st.paths.get? st.idx = some path)
    (hrows : formatNodeListF (formatSQL fuel) rows env
      { st with idx := st.idx + 1 } = .ok (rs, stR))
    (hw : formatSQL fuel w env { st with idx := st.idx + 1 } = .ok (ws, stW))
    (hitems : formatNodeListF (formatSQL fuel) items env
      { st with idx := st.idx + 1 } = .ok (us, stU))
    (hwu : formatSQL fuel wu env stU = .ok (wus, stWU)) :
    formatSQL (fuel + 1) (.tableScan (some ())) env st =
      .ok ("FROM `" ++ FormatName (MergeNamePath env.namePath path) ++ "`",
        { st with idx := st.idx + 1 }) ∧
    formatSQL (fuel + 1) (.insertStmt (some (cols, rows))) env st =
      .ok ("INSERT INTO `" ++ FormatName (MergeNamePath env.namePath path) ++
        "` (" ++ joinSep "," (cols.map (fun c => "`" ++ c ++ "`")) ++
        ") VALUES " ++ joinSep "," rs, stR) ∧
    formatSQL (fuel + 1) (.deleteStmt (some w)) env st =
      .ok ("DELETE FROM `" ++ FormatName (MergeNamePath env.namePath path) ++
        "` WHERE " ++ ws, stW) ∧
    formatSQL (fuel + 1) (.updateStmt (some (items, wu))) env st =
      .ok ("UPDATE `" ++ FormatName (MergeNamePath env.namePath path) ++
        "` SET " ++ joinSep "," us ++ " WHERE " ++ wus, stWU) := by
  have hcp : consumePath env st =
      .ok (FormatName (MergeNamePath env.namePath path),
        { st with idx := st.idx + 1 }) := by
    simp only [consumePath, hpath]
  refine ⟨?_, ?_, ?_, ?_⟩ <;>
    simp only [formatSQL, hcp, hrows, hw, hitems, hwu]

/-- C3 witness: with one cursor entry `["t1"]`, the table scan ends at
index 1 with `FROM `t1``, and each DML statement with reference-free
children ends at index 1, having consumed exactly the one entry. -/
theorem C3_single_cursor_advance_witness :
    formatSQL 10 (.tableScan (some ())) env0 stP =
      .ok ("FROM `t1`", ⟨[["t1"]], 1, [], []⟩) ∧
    formatSQL 10 (.insertStmt (some (["a"], []))) env0 stP =
      .ok ("INSERT INTO `t1` (`a`) VALUES ", ⟨[["t1"]], 1, [], []⟩) ∧
    formatSQL 10 (.deleteStmt (some (.literal (some "1")))) env0 stP =
      .ok ("DELETE FROM `t1` WHERE 1", ⟨[["t1"]], 1, [], []⟩) ∧
    formatSQL 10 (.updateStmt (some ([], .literal (some "2")))) env0 stP =
      .ok ("UPDATE `t1` SET  WHERE 2", ⟨[["t1"]], 1, [], []⟩) :=
  C3_single_cursor_advance 9 env0 stP ["t1"] ["a"] [] []
    (.literal (some "1")) (.literal (some "2")) [] [] "1" "2"
    ⟨[["t1"]], 1, [], []⟩ ⟨[["t1"]], 1, [], []⟩ ⟨[["t1"]], 1, [], []⟩
    ⟨[["t1"]], 1, [], []⟩ rfl rfl rfl rfl rfl

/-- C5: for a sigil-prefixed or catalogued scalar function call the
emitted callee is `zetasqlite_<bare>_<family>` applied to the formatted
arguments, where `<family>` is the lowercased declared result type name
collapsed to `struct` for every structured type; the mangled name of
`sum` with family `int64` differs from `sum` with any structured result
type, and the name depends only on the function identity and the
result-type family. -/
theorem C5_function_mangling (fuel : Nat) (argList : List Node) (env : FmtEnv)
    (st st1 : FmtState) (args : List String) (rtn rtn2 fn : String)
    (hargs : formatNodeListF (formatSQL fuel) argList env st = .ok (args, st1)) :
    (strStartsWith fn "$" = true →
      formatSQL (fuel + 1) (.functionCall (some (argList, rtn, fn))) env st =
        .ok (mangledName (strDrop1 fn) (familyOf rtn) ++ "(" ++
          joinSep "," args ++ ")", st1)) ∧
    (strStartsWith fn "$" = false → env.normalFuncs.contains fn = true →
      formatSQL (fuel + 1) (.functionCall (some (argList, rtn, fn))) env st =
        .ok (mangledName fn (familyOf rtn) ++ "(" ++
          joinSep "," args ++ ")", st1)) ∧
    (strStartsWith (strToLower rtn) "struct" = true → familyOf rtn = "struct") ∧
    (strStartsWith (strToLower rtn) "struct" = false →
      familyOf rtn = strToLower rtn) ∧
    (strStartsWith (strToLower rtn) "struct" = true →
      mangledName "sum" (familyOf "INT64") ≠ mangledName "sum" (familyOf rtn)) ∧
    (familyOf rtn2 = familyOf rtn →
      mangledName fn (familyOf rtn2) = mangledName fn (familyOf rtn)) := by
  refine ⟨?_, ?_, ?_, ?_, ?_, ?_⟩
  · intro h
    simp [formatSQL, hargs, h]
  · intro h1 h2
    have h2m : fn ∈ env.normalFuncs := by simpa using h2
    simp [formatSQL, hargs, h1, h2m]
  · intro h
    simp [familyOf, h]
  · intro h
    simp [familyOf, h]
  · intro h
    have hs : familyOf rtn = "struct" := by simp [familyOf, h]
    rw [hs]
    decide
  · intro h
    rw [h]

/-- C5 witness: `$sum` with structured result type `STRUCT<INT64>`
mangles to `zetasqlite_sum_struct`, distinct from the `int64` family
mangling of the same bare name. -/
theorem C5_function_mangling_witness :
    (strStartsWith "$sum" "$" = true →
      formatSQL 6 (.functionCall (some ([], "STRUCT<INT64>", "$sum"))) env0 st0 =
        .ok ("zetasqlite_sum_struct()", st0)) ∧
    (strStartsWith "$sum" "$" = false → env0.normalFuncs.contains "$sum" = true →
      formatSQL 6 (.functionCall (some ([], "STRUCT<INT64>", "$sum"))) env0 st0 =
        .ok ("zetasqlite_$sum_struct()", st0)) ∧
    (strStartsWith (strToLower "STRUCT<INT64>") "struct" = true →
      familyOf "STRUCT<INT64>" = "struct") ∧
    (strStartsWith (strToLower "STRUCT<INT64>") "struct" = false →
      familyOf "STRUCT<INT64>" = strToLower "STRUCT<INT64>") ∧
    (strStartsWith (strToLower "STRUCT<INT64>") "struct" = true →
      mangledName "sum" (familyOf "INT64") ≠
        mangledName "sum" (familyOf "STRUCT<INT64>")) ∧
    (familyOf "int64" = familyOf "STRUCT<INT64>" →
      mangledName "$sum" (familyOf "int64") =
        mangledName "$sum" (familyOf "STRUCT<INT64>")) :=
  C5_function_mangling 5 [] env0 st0 st0 [] "STRUCT<INT64>" "int64" "$sum" rfl

/-- C2 counterexample: a project scan computing column `y` whose declared
output column list is `["z"]` (it does not mention `y`).  The computed
expression for `y` is never emitted (so it does not appear exactly once),
and its entry stays behind: the column-expression map at the end of the
projecting scope is `[("y", "1 AS `y`")]`, not empty — refuting the claim
at this input. -/
theorem C2_counterexample :
    formatSQL 10 (.projectScan (some ([.computedColumn (some (.literal (some "1"), "y"))],
        .withRefScan (some "t"), ["z"]))) env0 st0 =
      .ok ("SELECT `z` FROM t", ⟨[], 0, [("y", "1 AS `y`")], []⟩) ∧
    ([("y", "1 AS `y`")] : List (String × String)) ≠ [] :=
  ⟨rfl, by simp⟩

/-- C2 (amended): in a projecting scope, each column-expression map entry
consumed by the enclosing projection is removed from the map; each
computed expression is emitted at exactly the first occurrence of its
column name among the declared output columns (later occurrences and
unmapped names render as bare quoted names); and the map is empty at the
end of the scope provided every computed column's name appears among the
declared output columns (with unique map keys). -/
theorem C2_project_scope_drains_map (fuel : Nat) (exprList : List Node)
    (input : Node) (colNames : List String) (env : FmtEnv)
    (st st1 st2 : FmtState) (qs : List String) (s : String)
    (i : Nat) (c : String)
    (hexprs : formatNodeListF (formatSQL fuel) exprList env st = .ok (qs, st1))
    (hinput : formatSQL fuel input env st1 = .ok (s, st2))
    (hnd : (st2.columnMap.map Prod.fst).Nodup)
    (hsub : ∀ k ∈ st2.columnMap.map Prod.fst, k ∈ colNames)
    (hic : colNames.get? i = some c) :
    formatSQL (fuel + 1) (.projectScan (some (exprList, input, colNames))) env st =
      .ok ("SELECT " ++ joinSep "," (projectColumns colNames st2.columnMap).1 ++
        " " ++ s, { st2 with columnMap := [] }) ∧
    (projectColumns colNames st2.columnMap).1.get? i =
      some (if c ∈ colNames.take i then "`" ++ c ++ "`"
            else match assocLookup st2.columnMap c with
                 | some ref => ref
                 | none => "`" ++ c ++ "`") ∧
    assocLookup (projectColumns colNames st2.columnMap).2 c = none := by
  have hempty := projectColumns_map_empty colNames st2.columnMap hnd hsub
  refine ⟨?_, projectColumns_get colNames st2.columnMap hnd i c hic,
    by rw [hempty]; rfl⟩
  rcases hx : projectColumns colNames st2.columnMap with ⟨colsOut, m2⟩
  have hm2 : m2 = [] := by
    rw [hx] at hempty
    exact hempty
  subst hm2
  simp [formatSQL, hexprs, hinput, hx]

/-- C2 witness: with computed column `y` also declared as the only output
column, the expression is emitted once, its entry is consumed
(`assocLookup` finds nothing afterwards), and the map ends empty. -/
theorem C2_project_scope_drains_map_witness :
    formatSQL 10 (.projectScan (some ([.computedColumn (some (.literal (some "1"), "y"))],
        .withRefScan (some "t"), ["y"]))) env0 st0 =
      .ok ("SELECT 1 AS `y` FROM t", ⟨[], 0, [], []⟩) ∧
    (projectColumns ["y"] [("y", "1 AS `y`")]).1.get? 0 = some "1 AS `y`" ∧
    assocLookup (projectColumns ["y"] [("y", "1 AS `y`")]).2 "y" = none :=
  C2_project_scope_drains_map 9 [.computedColumn (some (.literal (some "1"), "y"))]
    (.withRefScan (some "t")) ["y"] env0 st0
    ⟨[], 0, [("y", "1 AS `y`")], []⟩ ⟨[], 0, [("y", "1 AS `y`")], []⟩
    ["1 AS `y`"] "FROM t" 0 "y" rfl rfl (by simp) (by simp) rfl

/-- C6 counterexample: the claim says each formatted argument fills the
next remaining placeholder OF THE BODY, left-to-right.  But the code
replaces the first `?` of the current, partially substituted text: an
argument that itself formats to `?` (an `ArgumentRefNode` does exactly
that) is then overwritten by the following argument.  With body `? + ?`
and arguments formatting to `?` and `2`, the code yields `( 2 + ? )`
while placeholder-of-the-body substitution yields `( ? + 2 )`. -/
theorem C6_counterexample :
    formatSQL 10 (.functionCall (some ([.argumentRef (some ()), .literal (some "2")],
        "INT64", "f"))) envF stF =
      .ok ("( 2 + ? )", ⟨[["f"]], 1, [], []⟩) ∧
    "( 2 + ? )" ≠ "( " ++ substPlaceholdersSpec "? + ?" ["?", "2"] ++ " )" :=
  ⟨rfl, by decide⟩

/-- C6 (amended): a user-defined function call that resolves to a
`FunctionSpec` substitutes each formatted argument for the first
placeholder of the current (partially substituted) body text,
left-to-right, and wraps the result in parentheses; when no formatted
argument itself contains a placeholder character this coincides with
one-argument-per-body-placeholder substitution, and body `? + ?` with
arguments `1`, `2` inlines to `1 + 2`. -/
theorem C6_udf_inlining (fuel : Nat) (argList : List Node) (env : FmtEnv)
    (st st1 : FmtState) (args : List String) (rtn fn body : String)
    (path : List String)
    (hfn1 : strStartsWith fn "$" = false)
    (hfn2 : env.normalFuncs.contains fn = false)
    (hargs : formatNodeListF (formatSQL fuel) argList env st = .ok (args, st1))
    (hpath : st1.paths.get? st1.idx = some path)
    (hspec : assocLookup env.funcMap (FormatName (MergeNamePath env.namePath path)) =
      some ⟨body⟩) :
    formatSQL (fuel + 1) (.functionCall (some (argList, rtn, fn))) env st =
      .ok ("( " ++ inlineBody body args ++ " )", { st1 with idx := st1.idx + 1 }) ∧
    ((∀ a ∈ args, '?' ∉ a.data) →
      inlineBody body args = substPlaceholdersSpec body args) ∧
    inlineBody "? + ?" ["1", "2"] = "1 + 2" := by
  refine ⟨?_, fun h => inlineBody_eq_substSpec body args h, rfl⟩
  have hcp : consumePath env st1 =
      .ok (FormatName (MergeNamePath env.namePath path),
        { st1 with idx := st1.idx + 1 }) := by
    simp only [consumePath, hpath]
  have hfn2m : fn ∉ env.normalFuncs := by simpa using hfn2
  simp [formatSQL, hargs, hfn1, hfn2m, hcp, hspec]

/-- C6 witness: arguments `1`, `2` against body `? + ?` inline to
`( 1 + 2 )` exactly as the claim's example requires. -/
theorem C6_udf_inlining_witness :
    formatSQL 10 (.functionCall (some ([.literal (some "1"), .literal (some "2")],
        "INT64", "f"))) envF stF =
      .ok ("( 1 + 2 )", ⟨[["f"]], 1, [], []⟩) ∧
    ((∀ a ∈ ["1", "2"], '?' ∉ a.data) →
      inlineBody "? + ?" ["1", "2"] = substPlaceholdersSpec "? + ?" ["1", "2"]) ∧
    inlineBody "? + ?" ["1", "2"] = "1 + 2" :=
  C6_udf_inlining 9 [.literal (some "1"), .literal (some "2")] envF stF
    ⟨[["f"]], 0, [], []⟩ ["1", "2"] "INT64" "f" "? + ?" ["f"]
    rfl rfl rfl rfl rfl

/-- C7 counterexample: an analytic scan whose single group declares
`PARTITION BY p` and computes one window function into output column
`rn`.  The collected partition, order and argument columns are exactly
[`p`], yet the emitted ORDER BY is ``ORDER BY `p`,`rn``` — the group loop
also appends each analytic function's own output column name — refuting
"exactly the collected partition, order, and argument columns". -/
theorem C7_counterexample :
    formatSQL 10 c7scan env0 st0 =
      .ok ("FROM ( SELECT *, ROW_NUMBER() OVER() AS `rowid` FROM t ) ORDER BY `p`,`rn`",
        ⟨[], 0, c7map, []⟩) ∧
    "FROM ( SELECT *, ROW_NUMBER() OVER() AS `rowid` FROM t ) ORDER BY `p`,`rn`" ≠
      "FROM ( SELECT *, ROW_NUMBER() OVER() AS `rowid` FROM t ) ORDER BY `p`" :=
  ⟨rfl, by decide⟩

/-- C7 (amended): the analytic scan wraps the formatted input in
`FROM ( SELECT *, ROW_NUMBER() OVER() AS `rowid` <input> )` followed by
an ORDER BY listing the accumulated order-column values — the collected
partition, order and argument columns TOGETHER WITH each analytic
function's own output column name, appended by the group loop right
after formatting that function (second conjunct); the accumulator is
reset afterwards.  The third conjunct instantiates the whole scan on a
one-group, one-function input, where the ORDER BY lists the partition
column `p` and the function's output column `rn`. -/
theorem C7_analytic_scan_order_by (fuel : Nat) (input : Node)
    (groups : List (Option (List (String × String)) × Option (List (String × String)) ×
      List (Node × String)))
    (env : FmtEnv) (st st1 stG : FmtState) (s : String)
    (fnNode : Node) (fname : String) (env2 : FmtEnv) (stX stY : FmtState)
    (q : String)
    (hinput : formatSQL fuel input env st = .ok (s, st1))
    (hgroups : formatAnalyticGroupsF (formatSQL fuel) groups env st1 = .ok stG)
    (hfn : formatComputedColumnF (formatSQL fuel) fnNode fname env2 stX = .ok (q, stY)) :
    formatSQL (fuel + 1) (.analyticScan (some (input, groups))) env st =
      .ok ("FROM ( SELECT *, ROW_NUMBER() OVER() AS `rowid` " ++ s ++ " ) " ++
        ("ORDER BY " ++ joinSep "," stG.orderColumnValues),
        { stG with orderColumnValues := [] }) ∧
    formatAnalyticGroupFnsF (formatSQL fuel) [(fnNode, fname)] env2 stX =
      .ok ([q], { stY with
        orderColumnValues := stY.orderColumnValues ++ ["`" ++ fname ++ "`"] }) ∧
    formatSQL 10 c7scan env0 st0 =
      .ok ("FROM ( SELECT *, ROW_NUMBER() OVER() AS `rowid` FROM t ) ORDER BY `p`,`rn`",
        ⟨[], 0, c7map, []⟩) := by
  refine ⟨?_, ?_, rfl⟩
  · simp [formatSQL, hinput, hgroups]
  · simp [formatAnalyticGroupFnsF, hfn]

/-- C7 witness: the scan over `FROM t` with group `c7groups` emits the
wrapped derived table and `ORDER BY `p`,`rn``, and the group loop appends
`rn` after formatting its function. -/
theorem C7_analytic_scan_order_by_witness :
    formatSQL 10 c7scan env0 st0 =
      .ok ("FROM ( SELECT *, ROW_NUMBER() OVER() AS `rowid` FROM t ) ORDER BY `p`,`rn`",
        ⟨[], 0, c7map, []⟩) ∧
    formatAnalyticGroupFnsF (formatSQL 9) [(c7call, "rn")] envP ⟨[], 0, [], ["`p`"]⟩ =
      .ok ([c7callSql ++ " AS `rn`"], ⟨[], 0, c7map, ["`p`", "`rn`"]⟩) ∧
    formatSQL 10 c7scan env0 st0 =
      .ok ("FROM ( SELECT *, ROW_NUMBER() OVER() AS `rowid` FROM t ) ORDER BY `p`,`rn`",
        ⟨[], 0, c7map, []⟩) :=
  C7_analytic_scan_order_by 9 (.withRefScan (some "t")) c7groups env0 st0 st0
    ⟨[], 0, c7map, ["`p`", "`rn`"]⟩ "FROM t" c7call "rn" envP
    ⟨[], 0, [], ["`p`"]⟩ ⟨[], 0, c7map, ["`p`"]⟩ (c7callSql ++ " AS `rn`")
    rfl rfl rfl

end ZetaFmt
